import Mathlib

/-!
Shallow embedding of the automation-recorder-service core (Go) into Lean 4.

The embedding covers:
- the JSON value universe handled by `encoding/json` decoding into
  `map[string]any` / `[]any` / `string` / `float64` / `bool` / `nil`
  (`JVal` below, with association-list objects);
- the Go string helpers used by the service (`strings.TrimSpace`,
  `strings.TrimRight(s, "/")`);
- the cache-key derivers `createTransactionKey` and
  `createFlowStatusCacheKey` (src/cache.go);
- the pure merge transforms performed inside one optimistic
  compare-and-swap cycle of `updateTransactionAtomically` (src/cache.go)
  and `appendFormEntryAtomically` (src/http_form.go), together with a
  store-level model of one successful cycle (Redis is modelled as a map
  from key to value plus residual TTL);
- the retry/outcome control flow of the 8-attempt optimistic loop;
- `setFlowStatusIfExists` (src/cache.go);
- the field-derivation and validation pipeline `deriveFields` and the
  synchronous phase of `LogEvent` (gRPC audit handler).

Wall-clock reads (`time.Now()`), random UUIDs and configuration are passed
as explicit parameters; the Redis store holds parsed JSON values (the Go
code stores their serialization, and `json.Marshal`/`json.Unmarshal`
round-trip on the values the service writes).
-/

/-- JSON values as decoded by Go `encoding/json` into `any`:
`nil`, `bool`, `float64` (modelled as `Int`; all numbers the service
inspects are integral), `string`, `[]any`, `map[string]any` (modelled as an
association list with unique keys, first binding wins). -/
inductive JVal where
  | null : JVal
  | bool (b : Bool) : JVal
  | num (n : Int) : JVal
  | str (s : String) : JVal
  | arr (xs : List JVal) : JVal
  | obj (fields : List (String × JVal)) : JVal

/-- Lookup of a key in a Go map decoded from JSON (first binding wins). -/
def objGet : List (String × JVal) → String → Option JVal
  | [], _ => none
  | (k, v) :: rest, key => if key = k then some v else objGet rest key

/-- Go map assignment `m[k] = v`: replace the first binding of `k`
if present, otherwise add a new binding. -/
def objSet : List (String × JVal) → String → JVal → List (String × JVal)
  | [], key, v => [(key, v)]
  | (k, w) :: rest, key, v =>
      if key = k then (k, v) :: rest else (k, w) :: objSet rest key v

theorem objGet_objSet_same (o : List (String × JVal)) (k : String) (v : JVal) :
    objGet (objSet o k v) k = some v := by
  induction o with
  | nil => simp [objSet, objGet]
  | cons hd tl ih =>
      by_cases h : k = hd.1
      · simp [objSet, objGet, h]
      · simp [objSet, objGet, h, ih]

theorem objGet_objSet_other (o : List (String × JVal)) (k k2 : String) (v : JVal)
    (hne : k2 ≠ k) : objGet (objSet o k v) k2 = objGet o k2 := by
  induction o with
  | nil => simp [objSet, objGet, hne]
  | cons hd tl ih =>
      by_cases h : k = hd.1
      · subst h
        simp [objSet, objGet, hne]
      · by_cases h2 : k2 = hd.1
        · simp [objSet, objGet, h, h2]
        · simp [objSet, objGet, h, h2, ih]

/-- The character class trimmed by Go `strings.TrimSpace`
(`unicode.IsSpace`): ASCII whitespace plus the Unicode White_Space
code points. -/
def goIsSpace (c : Char) : Bool :=
  c = ' ' || c = '\t' || c = '\n' || c = Char.ofNat 11 || c = Char.ofNat 12 ||
  c = '\r' || c = Char.ofNat 0x85 || c = Char.ofNat 0xA0 ||
  c = Char.ofNat 0x1680 ||
  (0x2000 ≤ c.toNat && c.toNat ≤ 0x200A) ||
  c = Char.ofNat 0x2028 || c = Char.ofNat 0x2029 ||
  c = Char.ofNat 0x202F || c = Char.ofNat 0x205F || c = Char.ofNat 0x3000

/-- Go `strings.TrimSpace s`: drop leading and trailing whitespace. -/
def trimSpace (s : String) : String :=
  ⟨((s.data.dropWhile goIsSpace).reverse.dropWhile goIsSpace).reverse⟩

/-- Go `strings.TrimRight(s, "/")`: drop ALL trailing `/` characters. -/
def trimRightSlashes (s : String) : String :=
  ⟨(s.data.reverse.dropWhile (fun c => c = '/')).reverse⟩

/-- `createTransactionKey` (src/cache.go): trim whitespace from both
inputs, strip all trailing slashes from the URL, return `""` when either
trimmed component is empty, else `id ++ "::" ++ url`. -/
def createTransactionKey (transactionID subscriberURL : String) : String :=
  let tid := trimSpace transactionID
  let url := trimRightSlashes (trimSpace subscriberURL)
  if tid = "" || url = "" then "" else tid ++ "::" ++ url

/-- Modelled from the spec's words for claim C2 only (refinement target,
NOT from the source): same as `createTransactionKey` but stripping
EXACTLY ONE trailing `/` from the trimmed URL. -/
def createTransactionKeySpec (transactionID subscriberURL : String) : String :=
  let tid := trimSpace transactionID
  let url0 := trimSpace subscriberURL
  let url := if url0.data.reverse.head? = some '/' then ⟨url0.data.dropLast⟩ else url0
  if tid = "" || url = "" then "" else tid ++ "::" ++ url

/-- `createFlowStatusCacheKey` (src/cache.go): trim both inputs (no
trailing-slash stripping), `""` when either is empty, else
`"FLOW_STATUS_" ++ id ++ "::" ++ url`. -/
def createFlowStatusCacheKey (transactionID subscriberURL : String) : String :=
  let tid := trimSpace transactionID
  let url := trimSpace subscriberURL
  if tid = "" || url = "" then "" else "FLOW_STATUS_" ++ tid ++ "::" ++ url

example : createTransactionKey "  t1  " " https://ex.com/ " = "t1::https://ex.com" := by decide
example : createTransactionKey "" "x" = "" := by decide
example : createTransactionKey "t1" "" = "" := by decide
example : createTransactionKey "t1" "https://ex.com//" = "t1::https://ex.com" := by decide
example : createTransactionKeySpec "t1" "https://ex.com//" = "t1::https://ex.com/" := by decide

/-- Input to the audit-append transform (`cacheAppendInput`, src/cache.go). -/
structure CacheAppendInput where
  payloadID : String
  transactionID : String
  messageID : String
  subscriberURL : String
  action : String
  timestamp : String
  ttlSecs : Int
  response : JVal

/-- The string elements of a decoded `messageIds` value, as collected by
the `[]any` branch in src/cache.go lines 79-88 (non-string elements are
skipped; the `[]string` branch is unreachable for values produced by
`json.Unmarshal` into `map[string]any`); a non-array or absent value
yields the empty list. -/
def extractMsgIDs : Option JVal → List String
  | some (.arr xs) => xs.filterMap (fun v => match v with | .str s => some s | _ => none)
  | _ => []

/-- The new `apiList` entry built by `updateTransactionAtomically`
(src/cache.go lines 112-123); `serverTs` stands for the
`time.Now().UTC().Format(time.RFC3339Nano)` read. -/
def mkAuditEntry (input : CacheAppendInput) (serverTs : String) : List (String × JVal) :=
  [("entryType", .str "API"),
   ("action", .str (trimSpace input.action)),
   ("payloadId", .str (trimSpace input.payloadID)),
   ("messageId", .str (trimSpace input.messageID)),
   ("response", input.response),
   ("timestamp", .str (trimSpace input.timestamp)),
   ("realTimestamp", .str serverTs)] ++
  (if input.ttlSecs > 0 then [("ttl", .num input.ttlSecs)] else [])

/-- The pure document transform applied inside one cycle of
`updateTransactionAtomically` (src/cache.go lines 72-125): overwrite
`latestAction`/`latestTimestamp`, merge the trimmed non-blank message id
into `messageIds` without duplicates, and append one API entry to
`apiList`. -/
def auditTransform (input : CacheAppendInput) (serverTs : String)
    (txn : List (String × JVal)) : List (String × JVal) :=
  let txn1 := objSet txn "latestAction" (.str (trimSpace input.action))
  let txn2 := objSet txn1 "latestTimestamp" (.str (trimSpace input.timestamp))
  let messageID := trimSpace input.messageID
  let txn3 :=
    if messageID = "" then txn2
    else
      let msgIDs := extractMsgIDs (objGet txn2 "messageIds")
      let msgIDs2 := if msgIDs.contains messageID then msgIDs else msgIDs ++ [messageID]
      objSet txn2 "messageIds" (.arr (msgIDs2.map .str))
  let apiList := match objGet txn3 "apiList" with
    | some (.arr xs) => xs
    | _ => []
  objSet txn3 "apiList" (.arr (apiList ++ [.obj (mkAuditEntry input serverTs)]))

/-- The new FORM entry built by `appendFormEntryAtomically`
(src/http_form.go lines 153-164); `serverTs` stands for the
`tsISOStringNow()` read; `errVal = none` models a `nil` error value. -/
def mkFormEntry (formID formType submissionID : String) (errVal : Option JVal)
    (serverTs : String) : List (String × JVal) :=
  [("entryType", .str "FORM"),
   ("formId", .str (trimSpace formID)),
   ("timestamp", .str serverTs),
   ("formType", .str (trimSpace formType))] ++
  (if trimSpace submissionID ≠ "" then [("submissionId", .str (trimSpace submissionID))] else []) ++
  (match errVal with | some v => [("error", v)] | none => [])

/-- The pure document transform applied inside one cycle of
`appendFormEntryAtomically` (src/http_form.go lines 148-167): append one
FORM entry to `apiList`, touching nothing else. -/
def formTransform (formID formType submissionID : String) (errVal : Option JVal)
    (serverTs : String) (txn : List (String × JVal)) : List (String × JVal) :=
  let apiList := match objGet txn "apiList" with
    | some (.arr xs) => xs
    | _ => []
  objSet txn "apiList" (.arr (apiList ++ [.obj (mkFormEntry formID formType submissionID errVal serverTs)]))

/-- One Redis entry: the stored (parsed) value and its residual TTL in
seconds; `none` means "no expiry" (Redis TTL = -1). -/
structure RedisEntry where
  value : JVal
  ttl : Option Nat

/-- The Redis key space. -/
def Store : Type := String → Option RedisEntry

/-- Redis `SET key e` leaving every other key alone. -/
def storeSet (s : Store) (key : String) (e : RedisEntry) : Store :=
  fun k => if k = key then some e else s k

def emptyStore : Store := fun _ => none

/-- Decoding a stored value with `json.Unmarshal` into `map[string]any`:
an object decodes to itself, `null` decodes to a nil map which the code
replaces with an empty map (src/cache.go lines 65-67), anything else is a
decode error. -/
def decodeDoc : JVal → Option (List (String × JVal))
  | .obj o => some o
  | .null => some []
  | _ => none

/-- Terminal errors of one merge cycle. -/
inductive CycleErr where
  | notFound : CycleErr
  | decodeErr : CycleErr
  | invalidKey : CycleErr
deriving DecidableEq

/-- Store-level model of one SUCCESSFUL (conflict-free) optimistic cycle of
`updateTransactionAtomically` (src/cache.go lines 48-140): read the value
at `key` (absent is `errNotFound`), decode, apply `auditTransform`, and
write back with expiry `cacheTTL` when `cacheTTL > 0` and no expiry
otherwise (the `pipe.Set` at lines 132-137 — the existing residual TTL is
never read on this path). `cacheTTL` is in seconds. -/
def updateTransactionCycle (key : String) (input : CacheAppendInput)
    (cacheTTL : Int) (serverTs : String) (store : Store) : Except CycleErr Store :=
  match store key with
  | none => .error .notFound
  | some entry =>
    match decodeDoc entry.value with
    | none => .error .decodeErr
    | some txn =>
      let txn2 := auditTransform input serverTs txn
      .ok (storeSet store key
        ⟨.obj txn2, if cacheTTL > 0 then some cacheTTL.toNat else none⟩)

/-- The TTL write-back rule of `appendFormEntryAtomically`
(src/http_form.go lines 174-180): a positive residual TTL read by
`tx.TTL` is preserved; `-1` (no expiry, modelled `none`) leads to a write
with zero expiration, i.e. no expiry. -/
def preserveTTL : Option Nat → Option Nat
  | some n => if n > 0 then some n else none
  | none => none

/-- Store-level model of one SUCCESSFUL (conflict-free) optimistic cycle of
`appendFormEntryAtomically` (src/http_form.go lines 118-183): derive the
key (empty is an `invalid key` error), read the value at `key` (absent is
`errNotFound`), read the residual TTL, decode, apply `formTransform`, and
write back preserving the residual TTL (`ttl > 0` keeps it, otherwise the
key is written with no expiry, src/http_form.go lines 174-180). -/
def appendFormEntryCycle (transactionID subscriberURL formID formType submissionID : String)
    (errVal : Option JVal) (serverTs : String) (store : Store) : Except CycleErr Store :=
  let key := createTransactionKey transactionID subscriberURL
  if key = "" then .error .invalidKey
  else
    match store key with
    | none => .error .notFound
    | some entry =>
      match decodeDoc entry.value with
      | none => .error .decodeErr
      | some txn =>
        let txn2 := formTransform formID formType submissionID errVal serverTs txn
        .ok (storeSet store key ⟨.obj txn2, preserveTTL entry.ttl⟩)

/-- `setFlowStatusIfExists` (src/cache.go lines 172-192): if the
flow-status key is empty or absent, do nothing; otherwise overwrite the
value with `{"status": statusValue}` and set expiry `ttl` (no expiry when
`ttl = 0`, mirroring `rdb.Set` with a zero duration). `ttl` is in
seconds. -/
def setFlowStatusIfExists (store : Store) (transactionID subscriberURL statusValue : String)
    (ttl : Nat) : Store :=
  let key := createFlowStatusCacheKey transactionID subscriberURL
  if key = "" then store
  else
    match store key with
    | none => store
    | some _ =>
        storeSet store key
          ⟨.obj [("status", .str statusValue)], if ttl > 0 then some ttl else none⟩

/-- Classification of one attempt of the optimistic loop, mirroring the
error dispatch in src/cache.go lines 142-157: the cycle either commits
(`ok`), finds the key absent (`notFound`), loses the compare-and-swap race
(`conflict`, `redis.TxFailedErr`), or fails with any other store/decode
error (`otherErr`). -/
inductive CycleOutcome where
  | ok : CycleOutcome
  | notFound : CycleOutcome
  | conflict : CycleOutcome
  | otherErr : CycleOutcome
deriving DecidableEq

/-- Caller-visible outcomes of `updateTransactionAtomically`. -/
inductive UpdateOutcome where
  | success : UpdateOutcome
  | notFound : UpdateOutcome
  | aborted : UpdateOutcome
  | otherError : UpdateOutcome
deriving DecidableEq

/-- The retry loop of `updateTransactionAtomically` (src/cache.go lines
44-159), attempt counter running while `fuel` attempts remain: a clean
cycle returns success, `errNotFound` is terminal, a conflict moves to the
next attempt, any other error is terminal; exhausting all attempts yields
`errAborted`. `cycle i` is the outcome the store environment gives
attempt `i`. -/
def updateLoop (cycle : Nat → CycleOutcome) : Nat → Nat → UpdateOutcome
  | _, 0 => .aborted
  | attempt, fuel + 1 =>
    match cycle attempt with
    | .ok => .success
    | .notFound => .notFound
    | .otherErr => .otherError
    | .conflict => updateLoop cycle (attempt + 1) fuel

/-- `maxAttempts` (src/cache.go line 42 and src/http_form.go line 127). -/
def maxAttempts : Nat := 8

/-- Outcome-level model of `updateTransactionAtomically`: run the retry
loop from attempt 0 with `maxAttempts` attempts available. -/
def updateTransactionAtomicallyOutcome (cycle : Nat → CycleOutcome) : UpdateOutcome :=
  updateLoop cycle 0 maxAttempts

/-- Decimal digit run for `goParseInt64`. -/
def digitsVal : List Char → Option Nat
  | [] => none
  | cs => cs.foldl (fun acc c => match acc with
      | none => none
      | some n => if c.isDigit then some (n * 10 + (c.toNat - 48)) else none)
      (some 0)

/-- Go `strconv.ParseInt(s, 10, 64)` restricted to what the service uses:
optional sign, decimal digits, int64 range check; any failure is `none`
(the caller then keeps 0). -/
def goParseInt64 (s : String) : Option Int :=
  let core : List Char → Option Int → Option Int := fun cs sign =>
    match digitsVal cs, sign with
    | some n, some sg =>
        let v : Int := sg * (n : Int)
        if -(2 ^ 63) ≤ v ∧ v ≤ 2 ^ 63 - 1 then some v else none
    | _, _ => none
  match s.data with
  | '+' :: rest => core rest (some 1)
  | '-' :: rest => core rest (some (-1))
  | cs => core cs (some 1)

/-- `getString` (src/util.go): absent or nil yields `""`; a non-string
value yields `""` via the failed type assertion. -/
def getString (m : List (String × JVal)) (k : String) : String :=
  match objGet m k with
  | some (.str s) => s
  | _ => ""

/-- `getInt64` (src/util.go): absent/nil yields 0; numbers convert;
strings parse as trimmed base-10 int64; anything else yields 0. -/
def getInt64 (m : List (String × JVal)) (k : String) : Int :=
  match objGet m k with
  | some (.num n) => n
  | some (.str s) => (goParseInt64 (trimSpace s)).getD 0
  | _ => 0

/-- `getBool` (src/util.go): absent/nil/non-bool yields `false`. -/
def getBool (m : List (String × JVal)) (k : String) : Bool :=
  match objGet m k with
  | some (.bool b) => b
  | _ => false

/-- `derivedFields` (gRPC audit handler). -/
structure DerivedFields where
  payloadID : String
  transactionID : String
  messageID : String
  subscriberURL : String
  action : String
  timestamp : String
  apiName : String
  statusCode : Int
  ttlSecs : Int
  cacheTTLSecs : Int
  isMock : Bool
  sessionID : String
deriving DecidableEq

/-- `auditPayload` after the nil checks in `LogEvent`: both bodies are
known to be JSON objects, `additionalData` defaults to empty. -/
structure ResolvedPayload where
  requestBody : List (String × JVal)
  responseBody : List (String × JVal)
  additionalData : List (String × JVal)

/-- `deriveFields` (gRPC audit handler): read the structured metadata,
backfill the message id from `requestBody.context.message_id` when blank,
reject blank transaction id / subscriber URL, and default `action`,
`timestamp` (to `now`, the `time.Now().UTC().Format(time.RFC3339Nano)`
read) and `api_name`. -/
def deriveFields (p : ResolvedPayload) (now : String) : Except String DerivedFields :=
  let ad := p.additionalData
  let payloadID := getString ad "payload_id"
  let transactionID := getString ad "transaction_id"
  let messageID0 := getString ad "message_id"
  let subscriberURL := getString ad "subscriber_url"
  let action0 := getString ad "action"
  let timestamp0 := getString ad "timestamp"
  let apiName0 := getString ad "api_name"
  let statusCode := getInt64 ad "status_code"
  let ttlSecs := getInt64 ad "ttl_seconds"
  let cacheTTLSecs := getInt64 ad "cache_ttl_seconds"
  let isMock := getBool ad "is_mock"
  let sessionID := getString ad "session_id"
  let ctxObj : Option (List (String × JVal)) :=
    match objGet p.requestBody "context" with
    | some (.obj m) => some m
    | _ => none
  let messageID :=
    if trimSpace messageID0 = "" then
      match ctxObj with
      | some m => getString m "message_id"
      | none => messageID0
    else messageID0
  if trimSpace transactionID = "" then
    .error "transaction_id is required in additionalData"
  else if trimSpace subscriberURL = "" then
    .error "subscriber_url is required in additionalData"
  else
    let action := if trimSpace action0 = "" then "unknown_action" else action0
    let timestamp := if trimSpace timestamp0 = "" then now else timestamp0
    let apiName := if trimSpace apiName0 = "" then "unknown_api" else apiName0
    .ok ⟨payloadID, transactionID, messageID, subscriberURL, action, timestamp,
         apiName, statusCode, ttlSecs, cacheTTLSecs, isMock, sessionID⟩

/-- The configuration fields consumed by the synchronous `LogEvent` path. -/
structure Config where
  apiTTLSecondsDefault : Int
  cacheTTLSecondsDefault : Int
  skipCacheUpdate : Bool

/-- Go `json.Unmarshal` of a `map[string]any`-typed struct field: absent
or `null` leaves the map nil, an object decodes, anything else is an
unmarshal error. -/
def decodeObjField (o : List (String × JVal)) (k : String) :
    Except Unit (Option (List (String × JVal))) :=
  match objGet o k with
  | none => .ok none
  | some .null => .ok none
  | some (.obj m) => .ok (some m)
  | some _ => .error ()

/-- `auditPayload` exactly as produced by `json.Unmarshal` (before the nil
checks): each body may still be nil. -/
structure RawPayload where
  requestBody : Option (List (String × JVal))
  responseBody : Option (List (String × JVal))
  additionalData : Option (List (String × JVal))

/-- `json.Unmarshal(in.Value, &payload)` for `auditPayload`: the top-level
value must be an object (or `null`, which leaves every field nil); each of
the three fields decodes by `decodeObjField`. An `.error` is the
"invalid JSON" unmarshal failure. -/
def parseAuditPayload (raw : JVal) : Except Unit RawPayload :=
  match raw with
  | .null => .ok ⟨none, none, none⟩
  | .obj o => do
      let rb ← decodeObjField o "requestBody"
      let sb ← decodeObjField o "responseBody"
      let ad ← decodeObjField o "additionalData"
      .ok ⟨rb, sb, ad⟩
  | _ => .error ()

/-- Caller-visible gRPC error classes of the synchronous `LogEvent`
path. -/
inductive LEErr where
  | invalidArgument : LEErr
  | notFound : LEErr
  | aborted : LEErr
  | internal : LEErr
deriving DecidableEq

/-- The three defaulting steps of `LogEvent` (gRPC audit handler lines
101-109): a missing payload id becomes the fresh `uuidV4()` draw, and a
zero api/cache TTL becomes the configured default. -/
def applyDefaults (cfg : Config) (uuid : String) (d0 : DerivedFields) : DerivedFields :=
  let d1 := if d0.payloadID = "" then {d0 with payloadID := uuid} else d0
  let d2 := if d1.ttlSecs = 0 then {d1 with ttlSecs := cfg.apiTTLSecondsDefault} else d1
  if d2.cacheTTLSecs = 0 then {d2 with cacheTTLSecs := cfg.cacheTTLSecondsDefault} else d2

/-- The synchronous phase of `LogEvent` (gRPC audit handler): unmarshal
the payload, check both bodies are objects, derive fields, default the
payload id (`uuid` stands for the random `uuidV4()` draw) and the two
TTLs, derive the key, reject a negative cache TTL, then (unless
`skipCacheUpdate`) run one conflict-free cycle of
`updateTransactionAtomically` and, on success, `setFlowStatusIfExists`
with status `"AVAILABLE"` and a 5-hour TTL. Returns the outcome and the
resulting store; every error path leaves the store untouched. The
fire-and-forget jobs enqueued afterwards never touch the Redis store and
never change the outcome, and conflict retries are modelled separately by
`updateTransactionAtomicallyOutcome`. -/
def logEventSync (cfg : Config) (now uuid serverTs : String) (raw : JVal)
    (store : Store) : Except LEErr Unit × Store :=
  match parseAuditPayload raw with
  | .error _ => (.error .invalidArgument, store)
  | .ok p =>
    match p.requestBody with
    | none => (.error .invalidArgument, store)
    | some rb =>
      match p.responseBody with
      | none => (.error .invalidArgument, store)
      | some sb =>
        let ad := p.additionalData.getD []
        match deriveFields ⟨rb, sb, ad⟩ now with
        | .error _ => (.error .invalidArgument, store)
        | .ok d0 =>
          let d := applyDefaults cfg uuid d0
          let key := createTransactionKey d.transactionID d.subscriberURL
          if key = "" then (.error .invalidArgument, store)
          else if d.cacheTTLSecs < 0 then (.error .invalidArgument, store)
          else
            let cacheTTL : Int := if d.cacheTTLSecs > 0 then d.cacheTTLSecs else 0
            if cfg.skipCacheUpdate then (.ok (), store)
            else
              let input : CacheAppendInput :=
                ⟨d.payloadID, d.transactionID, d.messageID, d.subscriberURL,
                 d.action, d.timestamp, d.ttlSecs, .obj sb⟩
              match updateTransactionCycle key input cacheTTL serverTs store with
              | .error .notFound => (.error .notFound, store)
              | .error _ => (.error .internal, store)
              | .ok s2 =>
                  (.ok (), setFlowStatusIfExists s2 d.transactionID d.subscriberURL "AVAILABLE" (5 * 3600))

/-- The submission-id choice in the `/html-form` handler (src/http_form.go
lines 97-101): take the camelCase `submissionId` field; when it is blank
after trimming, fall back to the snake_case `submission_id` field. Failed
type assertions on non-string values yield `""`, exactly as `getString`
does. -/
def chooseSubmissionID (formData : List (String × JVal)) : String :=
  let sid := getString formData "submissionId"
  if trimSpace sid = "" then getString formData "submission_id" else sid

/-- The `error` value taken from the form payload (src/http_form.go line
103): absent or JSON `null` is the Go `nil` interface value, which
`appendFormEntryAtomically` then omits from the entry. -/
def extractErrVal (formData : List (String × JVal)) : Option JVal :=
  match objGet formData "error" with
  | none => none
  | some .null => none
  | some v => some v

/-- Sequential successful audit-append calls: run one conflict-free cycle
of `updateTransactionAtomically` per element, stopping at the first
terminal error. Each call carries its own input and its own
`time.Now()` reading. -/
def iterateAudit (key : String) (cacheTTL : Int) :
    List (CacheAppendInput × String) → Store → Except CycleErr Store
  | [], store => .ok store
  | (input, ts) :: rest, store =>
    match updateTransactionCycle key input cacheTTL ts store with
    | .error e => .error e
    | .ok s2 => iterateAudit key cacheTTL rest s2

/-- Residual TTL stored at `key` after a merge-cycle result (outer `none`:
the cycle failed or the key is absent). -/
def resultTTL (r : Except CycleErr Store) (key : String) : Option (Option Nat) :=
  match r with
  | .ok s => (s key).map RedisEntry.ttl
  | .error _ => none

/-- Decoded document stored at `key` after a merge-cycle result. -/
def resultDoc (r : Except CycleErr Store) (key : String) : Option (List (String × JVal)) :=
  match r with
  | .ok s =>
    match s key with
    | some e => decodeDoc e.value
    | none => none
  | .error _ => none

/-- The `apiList` array of the document stored at `key` after a
merge-cycle result. -/
def docApiList (r : Except CycleErr Store) (key : String) : Option (List JVal) :=
  match resultDoc r key with
  | some o =>
    match objGet o "apiList" with
    | some (.arr xs) => some xs
    | _ => none
  | none => none

/-- Whether an optional JSON value is an object (`map[string]any` decodes
without error and non-nil). -/
def isObjField : Option JVal → Bool
  | some (.obj _) => true
  | _ => false

theorem append_sep_ne_empty (a b : String) : a ++ "::" ++ b ≠ "" := by
  intro h
  have hl := congrArg String.length h
  have h2 : ("::" : String).length = 2 := rfl
  simp [String.length_append, h2] at hl

/-- C2 (amended): `createTransactionKey` trims whitespace from both
inputs, strips ALL trailing `/` characters from the trimmed URL (Go
`strings.TrimRight`), returns `""` exactly when either component is then
empty, and otherwise returns `trimmedId ++ "::" ++ strippedUrl`; the
spec's three concrete examples hold. -/
theorem C2_prop (id url : String) :
    (createTransactionKey id url = "" ↔
      (trimSpace id = "" ∨ trimRightSlashes (trimSpace url) = "")) ∧
    (trimSpace id ≠ "" → trimRightSlashes (trimSpace url) ≠ "" →
      createTransactionKey id url = trimSpace id ++ "::" ++ trimRightSlashes (trimSpace url)) ∧
    createTransactionKey "  t1  " " https://ex.com/ " = "t1::https://ex.com" ∧
    createTransactionKey "" "x" = "" ∧
    createTransactionKey "t1" "" = "" := by
  refine ⟨?_, ?_, by decide, by decide, by decide⟩
  · unfold createTransactionKey
    by_cases h1 : trimSpace id = "" <;> by_cases h2 : trimRightSlashes (trimSpace url) = "" <;>
      simp [h1, h2, append_sep_ne_empty]
  · intro h1 h2
    simp [createTransactionKey, h1, h2]

theorem C2_witness : createTransactionKey "a" "b" = "a::b" := by
  rw [(C2_prop "a" "b").2.1 (by decide) (by decide)]
  decide

/-- C2 counterexample: the claim says exactly ONE trailing `/` is
stripped, but on `"https://ex.com//"` the code strips both slashes, so the
claimed output `trimmedId ++ "::" ++ trimmedUrl-with-one-slash-stripped`
(computed by `createTransactionKeySpec`) differs from what
`createTransactionKey` returns. -/
theorem C2_counterexample :
    createTransactionKey "t1" "https://ex.com//" = "t1::https://ex.com" ∧
    createTransactionKeySpec "t1" "https://ex.com//" = "t1::https://ex.com/" ∧
    createTransactionKey "t1" "https://ex.com//" ≠
      createTransactionKeySpec "t1" "https://ex.com//" := by
  refine ⟨by decide, by decide, by decide⟩

theorem updateLoop_allConflict (cycle : Nat → CycleOutcome) :
    ∀ fuel attempt, (∀ i, attempt ≤ i → i < attempt + fuel → cycle i = .conflict) →
      updateLoop cycle attempt fuel = .aborted := by
  intro fuel
  induction fuel with
  | zero => intro attempt _; rfl
  | succ f ih =>
      intro attempt h
      have h0 : cycle attempt = .conflict := h attempt (le_refl _) (by omega)
      simp only [updateLoop, h0]
      exact ih (attempt + 1) (fun i h1 h2 => h i (by omega) (by omega))

theorem updateLoop_stop (cycle : Nat → CycleOutcome) :
    ∀ fuel attempt j, attempt ≤ j → j < attempt + fuel →
      (∀ i, attempt ≤ i → i < j → cycle i = .conflict) →
      cycle j ≠ .conflict →
      updateLoop cycle attempt fuel =
        (match cycle j with
         | .ok => .success
         | .notFound => .notFound
         | _ => .otherError) := by
  intro fuel
  induction fuel with
  | zero => intro attempt j h1 h2 _ _; omega
  | succ f ih =>
      intro attempt j h1 h2 hconf hne
      rcases Nat.eq_or_lt_of_le h1 with heq | hlt
      · subst heq
        cases hc : cycle attempt with
        | ok => simp [updateLoop, hc]
        | notFound => simp [updateLoop, hc]
        | otherErr => simp [updateLoop, hc]
        | conflict => exact absurd hc hne
      · have hca : cycle attempt = .conflict := hconf attempt (le_refl _) hlt
        simp only [updateLoop, hca]
        exact ih (attempt + 1) j hlt (by omega) (fun i hi1 hi2 => hconf i (by omega) hi2) hne

theorem updateLoop_congr (c1 c2 : Nat → CycleOutcome) :
    ∀ fuel attempt, (∀ i, attempt ≤ i → i < attempt + fuel → c1 i = c2 i) →
      updateLoop c1 attempt fuel = updateLoop c2 attempt fuel := by
  intro fuel
  induction fuel with
  | zero => intro attempt _; rfl
  | succ f ih =>
      intro attempt h
      have h0 : c1 attempt = c2 attempt := h attempt (le_refl _) (by omega)
      cases hc : c1 attempt with
      | ok => simp [updateLoop, hc, h0.symm.trans hc]
      | notFound => simp [updateLoop, hc, h0.symm.trans hc]
      | otherErr => simp [updateLoop, hc, h0.symm.trans hc]
      | conflict =>
          simp only [updateLoop, hc, h0.symm.trans hc]
          exact ih (attempt + 1) (fun i h1 h2 => h i (by omega) (by omega))

/-- C3: the optimistic controller runs at most `maxAttempts = 8` cycles
(the outcome only depends on the first 8 cycle results); a `notFound`
read on attempt 0 is terminal with no retry; 8 straight conflicts end in
`aborted`; and on the first non-conflict attempt the loop is terminal with
`success`, `notFound` or the other-error outcome of that attempt. -/
theorem C3_prop (cycle : Nat → CycleOutcome) :
    maxAttempts = 8 ∧
    (cycle 0 = .notFound → updateTransactionAtomicallyOutcome cycle = .notFound) ∧
    ((∀ i, i < maxAttempts → cycle i = .conflict) →
      updateTransactionAtomicallyOutcome cycle = .aborted) ∧
    (∀ j, j < maxAttempts → (∀ i, i < j → cycle i = .conflict) →
      (cycle j = .ok → updateTransactionAtomicallyOutcome cycle = .success) ∧
      (cycle j = .notFound → updateTransactionAtomicallyOutcome cycle = .notFound) ∧
      (cycle j = .otherErr → updateTransactionAtomicallyOutcome cycle = .otherError)) ∧
    (∀ cycle2, (∀ i, i < maxAttempts → cycle i = cycle2 i) →
      updateTransactionAtomicallyOutcome cycle = updateTransactionAtomicallyOutcome cycle2) := by
  refine ⟨rfl, ?_, ?_, ?_, ?_⟩
  · intro h0
    have := updateLoop_stop cycle maxAttempts 0 0 (le_refl _) (by simp [maxAttempts])
      (fun i h1 h2 => absurd h2 (by omega)) (by simp [h0])
    rw [updateTransactionAtomicallyOutcome, this, h0]
  · intro h
    exact updateLoop_allConflict cycle maxAttempts 0 (fun i _ h2 => h i (by omega))
  · intro j hj hconf
    refine ⟨?_, ?_, ?_⟩ <;> intro hj2 <;>
      · have := updateLoop_stop cycle maxAttempts 0 j (Nat.zero_le _) (by omega)
          (fun i _ h2 => hconf i h2) (by simp [hj2])
        rw [updateTransactionAtomicallyOutcome, this, hj2]
  · intro cycle2 h
    exact updateLoop_congr cycle cycle2 maxAttempts 0 (fun i _ h2 => h i (by omega))

theorem C3_witness :
    updateTransactionAtomicallyOutcome (fun _ => CycleOutcome.conflict) = .aborted :=
  (C3_prop (fun _ => CycleOutcome.conflict)).2.2.1 (fun _ _ => rfl)

/-- Seed store for C1: one transaction document with residual TTL 3600s. -/
def storeC1 : Store :=
  storeSet emptyStore "t1::https://s" ⟨.obj [("apiList", .arr [])], some 3600⟩

/-- Audit-append input used for the C1 instances. -/
def inputC1 : CacheAppendInput :=
  ⟨"pid-1", "t1", "m1", "https://s", "on_search", "2026-01-07T00:00:00Z", 30, .obj []⟩

/-- C1 counterexample: a document seeded with residual TTL 3600s, merged
by a successful audit-append with no cache-TTL override (`cacheTTL = 0`),
ends with NO expiry — the residual TTL is not preserved, contradicting the
claimed `(0, 3600]` window (the `pipe.Set` in src/cache.go writes with a
zero expiration, clearing the TTL; only the form-append path reads and
preserves the residual TTL). -/
theorem C1_counterexample :
    (storeC1 "t1::https://s").map RedisEntry.ttl = some (some 3600) ∧
    resultTTL (updateTransactionCycle "t1::https://s" inputC1 0 "ts0" storeC1)
      "t1::https://s" = some none := by
  exact ⟨rfl, rfl⟩

/-- C1 (amended): a successful audit-append cycle writes the document back
with expiry exactly the override when an override > 0 is supplied, and
with NO expiry otherwise — the prior residual TTL (finite or not) is never
consulted on this path; in particular a no-expiry document stays no-expiry
without an override. -/
theorem C1_prop (key : String) (input : CacheAppendInput) (cacheTTL : Int)
    (serverTs : String) (store : Store)
    (h : ((store key).bind (fun e => decodeDoc e.value)).isSome = true) :
    resultTTL (updateTransactionCycle key input cacheTTL serverTs store) key =
      some (if cacheTTL > 0 then some cacheTTL.toNat else none) := by
  rcases hk : store key with _ | e
  · rw [hk] at h; simp at h
  · rw [hk] at h
    rcases hd : decodeDoc e.value with _ | txn
    · simp [hd] at h
    · simp [updateTransactionCycle, hk, hd, resultTTL, storeSet]

theorem C1_witness :
    resultTTL (updateTransactionCycle "t1::https://s" inputC1 600 "ts0" storeC1)
      "t1::https://s" = some (some 600) := by
  have h := C1_prop "t1::https://s" inputC1 600 "ts0" storeC1 (by decide)
  rw [h]
  decide

theorem auditTransform_frame (input : CacheAppendInput) (ts : String)
    (txn : List (String × JVal)) (k : String)
    (h1 : k ≠ "latestAction") (h2 : k ≠ "latestTimestamp")
    (h3 : k ≠ "messageIds") (h4 : k ≠ "apiList") :
    objGet (auditTransform input ts txn) k = objGet txn k := by
  by_cases hm : trimSpace input.messageID = "" <;>
    simp [auditTransform, hm, objGet_objSet_other _ _ _ _ h1,
      objGet_objSet_other _ _ _ _ h2, objGet_objSet_other _ _ _ _ h3,
      objGet_objSet_other _ _ _ _ h4]

theorem formTransform_frame (formID formType subID : String) (errVal : Option JVal)
    (ts : String) (txn : List (String × JVal)) (k : String) (h : k ≠ "apiList") :
    objGet (formTransform formID formType subID errVal ts txn) k = objGet txn k := by
  simp [formTransform, objGet_objSet_other _ _ _ _ h]

/-- C7: both merge transforms only touch their declared fields — the
audit-append transform leaves every key other than `latestAction`,
`latestTimestamp`, `messageIds` and `apiList` bound exactly as before, the
form-append transform leaves every key other than `apiList` bound exactly
as before, and in particular the opaque caller-owned `flowId`, `sessionId`
and `subscriberType` fields survive both merges unchanged. -/
theorem C7_prop (input : CacheAppendInput) (ts : String)
    (txn : List (String × JVal)) (k : String)
    (formID formType subID : String) (errVal : Option JVal) (ts2 : String) :
    (k ≠ "latestAction" → k ≠ "latestTimestamp" → k ≠ "messageIds" → k ≠ "apiList" →
      objGet (auditTransform input ts txn) k = objGet txn k) ∧
    (k ≠ "apiList" →
      objGet (formTransform formID formType subID errVal ts2 txn) k = objGet txn k) ∧
    objGet (auditTransform input ts txn) "flowId" = objGet txn "flowId" ∧
    objGet (auditTransform input ts txn) "sessionId" = objGet txn "sessionId" ∧
    objGet (auditTransform input ts txn) "subscriberType" = objGet txn "subscriberType" ∧
    objGet (formTransform formID formType subID errVal ts2 txn) "flowId" = objGet txn "flowId" ∧
    objGet (formTransform formID formType subID errVal ts2 txn) "sessionId" = objGet txn "sessionId" ∧
    objGet (formTransform formID formType subID errVal ts2 txn) "subscriberType" =
      objGet txn "subscriberType" := by
  refine ⟨fun h1 h2 h3 h4 => auditTransform_frame input ts txn k h1 h2 h3 h4,
    fun h => formTransform_frame formID formType subID errVal ts2 txn k h,
    auditTransform_frame input ts txn _ (by decide) (by decide) (by decide) (by decide),
    auditTransform_frame input ts txn _ (by decide) (by decide) (by decide) (by decide),
    auditTransform_frame input ts txn _ (by decide) (by decide) (by decide) (by decide),
    formTransform_frame formID formType subID errVal ts2 txn _ (by decide),
    formTransform_frame formID formType subID errVal ts2 txn _ (by decide),
    formTransform_frame formID formType subID errVal ts2 txn _ (by decide)⟩

theorem C7_witness :
    objGet (auditTransform ⟨"p", "t", "m", "u", "a", "ts", 30, .obj []⟩ "rts"
      [("flowId", .str "f1"), ("sessionId", .str "s1")]) "flowId" = some (.str "f1") := by
  rw [(C7_prop ⟨"p", "t", "m", "u", "a", "ts", 30, .obj []⟩ "rts"
    [("flowId", .str "f1"), ("sessionId", .str "s1")] "flowId" "" "" "" none "").1
    (by decide) (by decide) (by decide) (by decide)]
  rfl

theorem extractMsgIDs_map_str (ids : List String) :
    extractMsgIDs (some (.arr (ids.map .str))) = ids := by
  induction ids with
  | nil => rfl
  | cons a l ih =>
      simpa [extractMsgIDs, List.filterMap_cons] using ih

theorem auditTransform_messageIds (input : CacheAppendInput) (ts : String)
    (txn : List (String × JVal)) (ids : List String)
    (h : objGet txn "messageIds" = some (.arr (ids.map .str))) :
    objGet (auditTransform input ts txn) "messageIds" =
      (if trimSpace input.messageID = "" then some (.arr (ids.map .str))
       else if ids.contains (trimSpace input.messageID) then some (.arr (ids.map .str))
       else some (.arr ((ids ++ [trimSpace input.messageID]).map .str))) := by
  have hA : ("messageIds" : String) ≠ "apiList" := by decide
  have hT : ("messageIds" : String) ≠ "latestTimestamp" := by decide
  have hL : ("messageIds" : String) ≠ "latestAction" := by decide
  by_cases hm : trimSpace input.messageID = ""
  · simp [auditTransform, hm, objGet_objSet_other _ _ _ _ hA,
      objGet_objSet_other _ _ _ _ hT, objGet_objSet_other _ _ _ _ hL, h]
  · have hmid : objGet (objSet (objSet txn "latestAction" (.str (trimSpace input.action)))
        "latestTimestamp" (.str (trimSpace input.timestamp))) "messageIds" =
        some (.arr (ids.map .str)) := by
      rw [objGet_objSet_other _ _ _ _ hT, objGet_objSet_other _ _ _ _ hL, h]
    by_cases hc : ids.contains (trimSpace input.messageID)
    · have hmem : trimSpace input.messageID ∈ ids := by simpa using hc
      simp [auditTransform, hm, hmid, extractMsgIDs_map_str, hc, hmem,
        objGet_objSet_other _ _ _ _ hA, objGet_objSet_same]
    · have hmem : trimSpace input.messageID ∉ ids := by simpa using hc
      simp [auditTransform, hm, hmid, extractMsgIDs_map_str, hc, hmem,
        objGet_objSet_other _ _ _ _ hA, objGet_objSet_same]

/-- C5: on a document whose `messageIds` is a JSON array of strings `ids`,
the audit-append transform leaves `messageIds` unchanged when the supplied
message id is already present (so exactly one occurrence remains when it
occurred once) or blank after trimming, and otherwise appends the trimmed
id at the end, keeping all prior ids in order. -/
theorem C5_prop (input : CacheAppendInput) (ts : String)
    (txn : List (String × JVal)) (ids : List String)
    (h : objGet txn "messageIds" = some (.arr (ids.map .str))) :
    (trimSpace input.messageID = "" →
      objGet (auditTransform input ts txn) "messageIds" = some (.arr (ids.map .str))) ∧
    (trimSpace input.messageID ≠ "" → ids.contains (trimSpace input.messageID) = true →
      objGet (auditTransform input ts txn) "messageIds" = some (.arr (ids.map .str))) ∧
    (trimSpace input.messageID ≠ "" → ids.contains (trimSpace input.messageID) = true →
      ids.count (trimSpace input.messageID) = 1 →
      (extractMsgIDs (objGet (auditTransform input ts txn) "messageIds")).count
        (trimSpace input.messageID) = 1) ∧
    (trimSpace input.messageID ≠ "" → ids.contains (trimSpace input.messageID) = false →
      objGet (auditTransform input ts txn) "messageIds" =
        some (.arr ((ids ++ [trimSpace input.messageID]).map .str))) := by
  have hmain := auditTransform_messageIds input ts txn ids h
  refine ⟨?_, ?_, ?_, ?_⟩
  · intro hm; rw [hmain, if_pos hm]
  · intro hm hc; rw [hmain, if_neg hm, if_pos hc]
  · intro hm hc hcount
    rw [hmain, if_neg hm, if_pos hc, extractMsgIDs_map_str]
    exact hcount
  · intro hm hc
    rw [hmain, if_neg hm, if_neg (by rw [hc]; simp)]

theorem C5_witness :
    objGet (auditTransform ⟨"p", "t", "m2", "u", "a", "ts", 30, .obj []⟩ "rts"
      [("messageIds", .arr [.str "m1", .str "m2"])]) "messageIds" =
      some (.arr [.str "m1", .str "m2"]) := by
  have h := (C5_prop ⟨"p", "t", "m2", "u", "a", "ts", 30, .obj []⟩ "rts"
    [("messageIds", .arr [.str "m1", .str "m2"])] ["m1", "m2"] (by rfl)).2.1
    (by decide) (by rfl)
  simpa using h

theorem auditTransform_apiList (input : CacheAppendInput) (ts : String)
    (txn : List (String × JVal)) (l : List JVal)
    (h : objGet txn "apiList" = some (.arr l)) :
    objGet (auditTransform input ts txn) "apiList" =
      some (.arr (l ++ [.obj (mkAuditEntry input ts)])) := by
  have hA1 : ("apiList" : String) ≠ "latestAction" := by decide
  have hA2 : ("apiList" : String) ≠ "latestTimestamp" := by decide
  have hA3 : ("apiList" : String) ≠ "messageIds" := by decide
  by_cases hm : trimSpace input.messageID = "" <;>
    simp [auditTransform, hm, objGet_objSet_same, objGet_objSet_other _ _ _ _ hA1,
      objGet_objSet_other _ _ _ _ hA2, objGet_objSet_other _ _ _ _ hA3, h]

theorem formTransform_apiList (formID formType subID : String) (errVal : Option JVal)
    (ts : String) (txn : List (String × JVal)) (l : List JVal)
    (h : objGet txn "apiList" = some (.arr l)) :
    objGet (formTransform formID formType subID errVal ts txn) "apiList" =
      some (.arr (l ++ [.obj (mkFormEntry formID formType subID errVal ts)])) := by
  simp [formTransform, objGet_objSet_same, h]

theorem iterateAudit_ok (key : String) (cacheTTL : Int) :
    ∀ (calls : List (CacheAppendInput × String)) (store : Store)
      (o : List (String × JVal)) (t : Option Nat) (l : List JVal),
      store key = some ⟨.obj o, t⟩ → objGet o "apiList" = some (.arr l) →
      ∃ s2 o2 t2, iterateAudit key cacheTTL calls store = .ok s2 ∧
        s2 key = some ⟨.obj o2, t2⟩ ∧
        objGet o2 "apiList" =
          some (.arr (l ++ calls.map (fun c => .obj (mkAuditEntry c.1 c.2)))) := by
  intro calls
  induction calls with
  | nil =>
      intro store o t l hk hl
      exact ⟨store, o, t, rfl, hk, by simpa using hl⟩
  | cons c rest ih =>
      intro store o t l hk hl
      obtain ⟨input, ts⟩ := c
      have hstep : updateTransactionCycle key input cacheTTL ts store =
          .ok (storeSet store key ⟨.obj (auditTransform input ts o),
            if cacheTTL > 0 then some cacheTTL.toNat else none⟩) := by
        simp [updateTransactionCycle, hk, decodeDoc]
      obtain ⟨s2, o2, t2, hiter, hk2, hl2⟩ :=
        ih (storeSet store key ⟨.obj (auditTransform input ts o),
            if cacheTTL > 0 then some cacheTTL.toNat else none⟩)
          (auditTransform input ts o)
          (if cacheTTL > 0 then some cacheTTL.toNat else none)
          (l ++ [.obj (mkAuditEntry input ts)])
          (by simp [storeSet])
          (auditTransform_apiList input ts o l hl)
      refine ⟨s2, o2, t2, ?_, hk2, ?_⟩
      · simp [iterateAudit, hstep, hiter]
      · simpa [List.append_assoc] using hl2

/-- C4: `apiList` is strictly append-only — one successful audit-append
cycle or form-append cycle maps an existing `apiList` array `l` to exactly
`l ++ [new entry]`, keeping every pre-existing entry in place and in
order; consequently N sequential successful audit-appends (with pairwise
distinct payload ids) starting from an empty `apiList` produce exactly the
N new entries in call order, each carrying `entryType = "API"`. -/
theorem C4_prop :
    (∀ (key : String) (input : CacheAppendInput) (cacheTTL : Int) (ts : String)
       (store : Store) (o : List (String × JVal)) (t : Option Nat) (l : List JVal),
      store key = some ⟨.obj o, t⟩ → objGet o "apiList" = some (.arr l) →
      docApiList (updateTransactionCycle key input cacheTTL ts store) key =
        some (l ++ [.obj (mkAuditEntry input ts)])) ∧
    (∀ (tid url formID formType subID : String) (errVal : Option JVal) (ts : String)
       (store : Store) (o : List (String × JVal)) (t : Option Nat) (l : List JVal),
      createTransactionKey tid url ≠ "" →
      store (createTransactionKey tid url) = some ⟨.obj o, t⟩ →
      objGet o "apiList" = some (.arr l) →
      docApiList (appendFormEntryCycle tid url formID formType subID errVal ts store)
          (createTransactionKey tid url) =
        some (l ++ [.obj (mkFormEntry formID formType subID errVal ts)])) ∧
    (∀ (key : String) (cacheTTL : Int) (calls : List (CacheAppendInput × String))
       (store : Store) (o : List (String × JVal)) (t : Option Nat),
      store key = some ⟨.obj o, t⟩ → objGet o "apiList" = some (.arr []) →
      calls.Pairwise (fun a b => a.1.payloadID ≠ b.1.payloadID) →
      docApiList (iterateAudit key cacheTTL calls store) key =
        some (calls.map (fun c => .obj (mkAuditEntry c.1 c.2))) ∧
      (calls.map (fun c => JVal.obj (mkAuditEntry c.1 c.2))).length = calls.length) ∧
    (∀ (input : CacheAppendInput) (ts : String),
      objGet (mkAuditEntry input ts) "entryType" = some (.str "API")) := by
  refine ⟨?_, ?_, ?_, ?_⟩
  · intro key input cacheTTL ts store o t l hk hl
    have hstep : updateTransactionCycle key input cacheTTL ts store =
        .ok (storeSet store key ⟨.obj (auditTransform input ts o),
          if cacheTTL > 0 then some cacheTTL.toNat else none⟩) := by
      simp [updateTransactionCycle, hk, decodeDoc]
    simp [docApiList, resultDoc, hstep, storeSet, decodeDoc,
      auditTransform_apiList input ts o l hl]
  · intro tid url formID formType subID errVal ts store o t l hkey hk hl
    have hstep : appendFormEntryCycle tid url formID formType subID errVal ts store =
        .ok (storeSet store (createTransactionKey tid url)
          ⟨.obj (formTransform formID formType subID errVal ts o), preserveTTL t⟩) := by
      simp [appendFormEntryCycle, hkey, hk, decodeDoc]
    simp [docApiList, resultDoc, hstep, storeSet, decodeDoc,
      formTransform_apiList formID formType subID errVal ts o l hl]
  · intro key cacheTTL calls store o t hk hl _
    obtain ⟨s2, o2, t2, hiter, hk2, hl2⟩ :=
      iterateAudit_ok key cacheTTL calls store o t [] hk hl
    refine ⟨?_, by simp⟩
    simp only [docApiList, resultDoc, hiter, hk2, decodeDoc]
    simp [hl2]
  · intro input ts
    simp [mkAuditEntry, objGet]

theorem C4_witness :
    docApiList (iterateAudit "k1" 0
        [(⟨"p1", "t", "m1", "u", "a1", "ts1", 30, .obj []⟩, "r1"),
         (⟨"p2", "t", "m2", "u", "a2", "ts2", 0, .obj []⟩, "r2")]
        (storeSet emptyStore "k1" ⟨.obj [("apiList", .arr [])], none⟩)) "k1" =
      some [.obj (mkAuditEntry ⟨"p1", "t", "m1", "u", "a1", "ts1", 30, .obj []⟩ "r1"),
            .obj (mkAuditEntry ⟨"p2", "t", "m2", "u", "a2", "ts2", 0, .obj []⟩ "r2")] := by
  have h := (C4_prop.2.2.1 "k1" 0
      [(⟨"p1", "t", "m1", "u", "a1", "ts1", 30, .obj []⟩, "r1"),
       (⟨"p2", "t", "m2", "u", "a2", "ts2", 0, .obj []⟩, "r2")]
      (storeSet emptyStore "k1" ⟨.obj [("apiList", .arr [])], none⟩)
      [("apiList", .arr [])] none (by rfl) (by rfl)
      (by simp)).1
  simpa using h

/-- C6: `setFlowStatusIfExists` never creates the flow-status key — when
the key is absent (or empty) the whole store is unchanged; when the key
exists and a positive TTL is supplied, the value becomes exactly
`{"status": statusValue}` with expiry reset to the supplied duration
(18000 s = 5 h in the audit flow), and every other key is untouched. -/
theorem C6_prop (store : Store) (tid url sv : String) (ttl : Nat) :
    (store (createFlowStatusCacheKey tid url) = none →
      ∀ k, setFlowStatusIfExists store tid url sv ttl k = store k) ∧
    (0 < ttl → createFlowStatusCacheKey tid url ≠ "" →
      (store (createFlowStatusCacheKey tid url)).isSome = true →
      setFlowStatusIfExists store tid url sv ttl (createFlowStatusCacheKey tid url) =
        some ⟨.obj [("status", .str sv)], some ttl⟩ ∧
      ∀ k, k ≠ createFlowStatusCacheKey tid url →
        setFlowStatusIfExists store tid url sv ttl k = store k) := by
  constructor
  · intro habs k
    unfold setFlowStatusIfExists
    by_cases hk : createFlowStatusCacheKey tid url = ""
    · simp [hk]
    · simp [hk, habs]
  · intro hpos hk hsome
    rcases hex : store (createFlowStatusCacheKey tid url) with _ | e
    · rw [hex] at hsome; simp at hsome
    · constructor
      · simp [setFlowStatusIfExists, hk, hex, storeSet, hpos]
      · intro k hkne
        simp [setFlowStatusIfExists, hk, hex, storeSet, hkne]

theorem C6_witness :
    setFlowStatusIfExists
        (storeSet emptyStore "FLOW_STATUS_t1::https://s"
          ⟨.obj [("status", .str "PENDING")], some 60⟩)
        "t1" "https://s" "AVAILABLE" 18000 "FLOW_STATUS_t1::https://s" =
      some ⟨.obj [("status", .str "AVAILABLE")], some 18000⟩ := by
  have h := ((C6_prop
      (storeSet emptyStore "FLOW_STATUS_t1::https://s"
        ⟨.obj [("status", .str "PENDING")], some 60⟩)
      "t1" "https://s" "AVAILABLE" 18000).2 (by decide) (by decide) (by decide)).1
  have hkey : createFlowStatusCacheKey "t1" "https://s" = "FLOW_STATUS_t1::https://s" := by
    decide
  rw [hkey] at h
  exact h

/-- C9: the `/html-form` handler stores the camelCase `submissionId` field
when it is non-blank after trimming and otherwise falls back to the
snake_case `submission_id` field; the FORM entry carries a `submissionId`
key exactly when the chosen value is non-blank after trimming (holding the
trimmed value), and with `submissionId = "  "` and
`submission_id = "sub-snake"` the stored value is `"sub-snake"`. -/
theorem C9_prop (formData : List (String × JVal))
    (formID formType subID : String) (errVal : Option JVal) (ts : String) :
    (trimSpace (getString formData "submissionId") ≠ "" →
      chooseSubmissionID formData = getString formData "submissionId") ∧
    (trimSpace (getString formData "submissionId") = "" →
      chooseSubmissionID formData = getString formData "submission_id") ∧
    (trimSpace subID ≠ "" →
      objGet (mkFormEntry formID formType subID errVal ts) "submissionId" =
        some (.str (trimSpace subID))) ∧
    (trimSpace subID = "" →
      objGet (mkFormEntry formID formType subID errVal ts) "submissionId" = none) ∧
    chooseSubmissionID
        [("submissionId", .str "  "), ("submission_id", .str "sub-snake")] = "sub-snake" ∧
    objGet (mkFormEntry "f1" "HTML_FORM"
        (chooseSubmissionID [("submissionId", .str "  "), ("submission_id", .str "sub-snake")])
        none ts) "submissionId" = some (.str "sub-snake") := by
  refine ⟨?_, ?_, ?_, ?_, by decide, ?_⟩
  · intro h; simp [chooseSubmissionID, h]
  · intro h; simp [chooseSubmissionID, h]
  · intro h
    cases errVal <;> simp [mkFormEntry, h, objGet]
  · intro h
    cases errVal <;> simp [mkFormEntry, h, objGet]
  · have hch : chooseSubmissionID
        [("submissionId", .str "  "), ("submission_id", .str "sub-snake")] = "sub-snake" := by
      decide
    rw [hch]
    have hblank : trimSpace "sub-snake" ≠ "" := by decide
    simp [mkFormEntry, hblank, objGet]
    decide

theorem C9_witness :
    objGet (mkFormEntry "f1" "t" "sub-1" none "ts") "submissionId" =
      some (.str "sub-1") := by
  rw [(C9_prop [] "f1" "t" "sub-1" none "ts").2.2.1 (by decide)]
  rfl

theorem deriveFields_error_iff (p : ResolvedPayload) (now : String) :
    (∃ e, deriveFields p now = .error e) ↔
      (trimSpace (getString p.additionalData "transaction_id") = "" ∨
       trimSpace (getString p.additionalData "subscriber_url") = "") := by
  unfold deriveFields
  by_cases h1 : trimSpace (getString p.additionalData "transaction_id") = "" <;>
    by_cases h2 : trimSpace (getString p.additionalData "subscriber_url") = "" <;>
    simp [h1, h2]

theorem deriveFields_ok_proj (p : ResolvedPayload) (now : String) (d : DerivedFields)
    (h : deriveFields p now = .ok d) :
    d.transactionID = getString p.additionalData "transaction_id" ∧
    d.subscriberURL = getString p.additionalData "subscriber_url" ∧
    d.cacheTTLSecs = getInt64 p.additionalData "cache_ttl_seconds" ∧
    d.ttlSecs = getInt64 p.additionalData "ttl_seconds" ∧
    d.action = (if trimSpace (getString p.additionalData "action") = ""
      then "unknown_action" else getString p.additionalData "action") ∧
    d.apiName = (if trimSpace (getString p.additionalData "api_name") = ""
      then "unknown_api" else getString p.additionalData "api_name") ∧
    d.timestamp = (if trimSpace (getString p.additionalData "timestamp") = ""
      then now else getString p.additionalData "timestamp") := by
  unfold deriveFields at h
  by_cases h1 : trimSpace (getString p.additionalData "transaction_id") = "" <;>
    by_cases h2 : trimSpace (getString p.additionalData "subscriber_url") = "" <;>
    simp [h1, h2] at h
  subst h
  refine ⟨rfl, rfl, rfl, rfl, rfl, rfl, rfl⟩

theorem applyDefaults_proj (cfg : Config) (uuid : String) (d0 : DerivedFields) :
    (applyDefaults cfg uuid d0).transactionID = d0.transactionID ∧
    (applyDefaults cfg uuid d0).subscriberURL = d0.subscriberURL ∧
    (applyDefaults cfg uuid d0).messageID = d0.messageID ∧
    (applyDefaults cfg uuid d0).cacheTTLSecs =
      (if d0.cacheTTLSecs = 0 then cfg.cacheTTLSecondsDefault else d0.cacheTTLSecs) ∧
    (applyDefaults cfg uuid d0).ttlSecs =
      (if d0.ttlSecs = 0 then cfg.apiTTLSecondsDefault else d0.ttlSecs) := by
  unfold applyDefaults
  by_cases hp : d0.payloadID = "" <;> by_cases ht : d0.ttlSecs = 0 <;>
    by_cases hc : d0.cacheTTLSecs = 0 <;> simp [hp, ht, hc]

/-- C8 (amended): `deriveFields` returns the terminal input error exactly
when the transaction id or subscriber URL is blank after trimming; blank
action / api name / timestamp default to `"unknown_action"` /
`"unknown_api"` / the current wall-clock reading; zero api/cache TTLs are
replaced by the configured defaults; and the synchronous `LogEvent` path
signals `InvalidArgument` exactly when a required field is blank, the
derived document key is empty (which additionally happens when the
trimmed subscriber URL consists only of `/` characters), or the effective
cache TTL is negative. -/
theorem C8_prop :
    (∀ (p : ResolvedPayload) (now : String),
      (∃ e, deriveFields p now = .error e) ↔
        (trimSpace (getString p.additionalData "transaction_id") = "" ∨
         trimSpace (getString p.additionalData "subscriber_url") = "")) ∧
    (∀ (p : ResolvedPayload) (now : String) (d : DerivedFields),
      deriveFields p now = .ok d →
      (trimSpace (getString p.additionalData "action") = "" → d.action = "unknown_action") ∧
      (trimSpace (getString p.additionalData "api_name") = "" → d.apiName = "unknown_api") ∧
      (trimSpace (getString p.additionalData "timestamp") = "" → d.timestamp = now)) ∧
    (∀ (cfg : Config) (uuid : String) (d0 : DerivedFields),
      (d0.ttlSecs = 0 → (applyDefaults cfg uuid d0).ttlSecs = cfg.apiTTLSecondsDefault) ∧
      (d0.cacheTTLSecs = 0 →
        (applyDefaults cfg uuid d0).cacheTTLSecs = cfg.cacheTTLSecondsDefault)) ∧
    (∀ (cfg : Config) (now uuid serverTs : String) (raw : JVal) (store : Store)
       (p : RawPayload) (rb sb : List (String × JVal)),
      parseAuditPayload raw = .ok p → p.requestBody = some rb → p.responseBody = some sb →
      ((logEventSync cfg now uuid serverTs raw store).1 = .error .invalidArgument ↔
        (trimSpace (getString (p.additionalData.getD []) "transaction_id") = "" ∨
         trimSpace (getString (p.additionalData.getD []) "subscriber_url") = "" ∨
         createTransactionKey (getString (p.additionalData.getD []) "transaction_id")
           (getString (p.additionalData.getD []) "subscriber_url") = "" ∨
         (if getInt64 (p.additionalData.getD []) "cache_ttl_seconds" = 0
          then cfg.cacheTTLSecondsDefault
          else getInt64 (p.additionalData.getD []) "cache_ttl_seconds") < 0))) := by
  refine ⟨deriveFields_error_iff, ?_, ?_, ?_⟩
  · intro p now d h
    obtain ⟨-, -, -, -, ha, hn, ht⟩ := deriveFields_ok_proj p now d h
    refine ⟨fun hb => ?_, fun hb => ?_, fun hb => ?_⟩
    · rw [ha, if_pos hb]
    · rw [hn, if_pos hb]
    · rw [ht, if_pos hb]
  · intro cfg uuid d0
    obtain ⟨-, -, -, hc, ht⟩ := applyDefaults_proj cfg uuid d0
    exact ⟨fun hz => by rw [ht, if_pos hz], fun hz => by rw [hc, if_pos hz]⟩
  · intro cfg now uuid serverTs raw store p rb sb hparse hrb hsb
    rcases hd : deriveFields ⟨rb, sb, p.additionalData.getD []⟩ now with e | d0
    · have hblank : trimSpace (getString (p.additionalData.getD []) "transaction_id") = "" ∨
          trimSpace (getString (p.additionalData.getD []) "subscriber_url") = "" := by
        have := (deriveFields_error_iff ⟨rb, sb, p.additionalData.getD []⟩ now).mp ⟨e, hd⟩
        simpa using this
      simp only [logEventSync, hparse, hrb, hsb, hd]
      rcases hblank with hb | hb
      · simp [hb]
      · simp [hb]
    · obtain ⟨htid, hurl, hcache, -, -, -, -⟩ :=
        deriveFields_ok_proj ⟨rb, sb, p.additionalData.getD []⟩ now d0 hd
      obtain ⟨ptid, purl, -, pcache, -⟩ := applyDefaults_proj cfg uuid d0
      have hnoblank : ¬ (trimSpace (getString (p.additionalData.getD []) "transaction_id") = "" ∨
          trimSpace (getString (p.additionalData.getD []) "subscriber_url") = "") := by
        intro hcontra
        obtain ⟨e, he⟩ := (deriveFields_error_iff ⟨rb, sb, p.additionalData.getD []⟩ now).mpr
          (by simpa using hcontra)
        rw [hd] at he
        exact Except.noConfusion he
      have hkeyeq : createTransactionKey (applyDefaults cfg uuid d0).transactionID
          (applyDefaults cfg uuid d0).subscriberURL =
          createTransactionKey (getString (p.additionalData.getD []) "transaction_id")
            (getString (p.additionalData.getD []) "subscriber_url") := by
        rw [ptid, purl, htid, hurl]
      have hcacheeq : (applyDefaults cfg uuid d0).cacheTTLSecs =
          (if getInt64 (p.additionalData.getD []) "cache_ttl_seconds" = 0
           then cfg.cacheTTLSecondsDefault
           else getInt64 (p.additionalData.getD []) "cache_ttl_seconds") := by
        rw [pcache, hcache]
      simp only [logEventSync, hparse, hrb, hsb, hd]
      by_cases hkey : createTransactionKey (applyDefaults cfg uuid d0).transactionID
          (applyDefaults cfg uuid d0).subscriberURL = ""
      · simp only [hkey, if_pos rfl]
        constructor
        · intro _
          exact Or.inr (Or.inr (Or.inl (hkeyeq.symm.trans hkey)))
        · intro _; trivial
      · by_cases hneg : (applyDefaults cfg uuid d0).cacheTTLSecs < 0
        · simp only [if_neg hkey, if_pos hneg]
          constructor
          · intro _
            exact Or.inr (Or.inr (Or.inr (by rw [← hcacheeq]; exact hneg)))
          · intro _; trivial
        · have hRHS : ¬ (trimSpace (getString (p.additionalData.getD []) "transaction_id") = "" ∨
              trimSpace (getString (p.additionalData.getD []) "subscriber_url") = "" ∨
              createTransactionKey (getString (p.additionalData.getD []) "transaction_id")
                (getString (p.additionalData.getD []) "subscriber_url") = "" ∨
              (if getInt64 (p.additionalData.getD []) "cache_ttl_seconds" = 0
               then cfg.cacheTTLSecondsDefault
               else getInt64 (p.additionalData.getD []) "cache_ttl_seconds") < 0) := by
            push_neg
            refine ⟨fun hb => hnoblank (Or.inl hb), fun hb => hnoblank (Or.inr hb),
              by rw [← hkeyeq]; exact hkey, ?_⟩
            rw [← hcacheeq]
            omega
          simp only [if_neg hkey, if_neg hneg]
          by_cases hskip : cfg.skipCacheUpdate
          · simp [hskip, hRHS]
          · rcases hcyc : updateTransactionCycle
                (createTransactionKey (applyDefaults cfg uuid d0).transactionID
                  (applyDefaults cfg uuid d0).subscriberURL)
                ⟨(applyDefaults cfg uuid d0).payloadID, (applyDefaults cfg uuid d0).transactionID,
                 (applyDefaults cfg uuid d0).messageID, (applyDefaults cfg uuid d0).subscriberURL,
                 (applyDefaults cfg uuid d0).action, (applyDefaults cfg uuid d0).timestamp,
                 (applyDefaults cfg uuid d0).ttlSecs, .obj sb⟩
                (if (applyDefaults cfg uuid d0).cacheTTLSecs > 0
                 then (applyDefaults cfg uuid d0).cacheTTLSecs else 0)
                serverTs store with e2 | s2
            · cases e2 <;> simp [hskip, hcyc, hRHS]
            · simp [hskip, hcyc, hRHS]

/-- Metadata object of the C8 counterexample. -/
def adC8 : List (String × JVal) :=
  [("transaction_id", .str "t1"), ("subscriber_url", .str "/")]

/-- Raw event payload of the C8 counterexample. -/
def rawC8 : JVal :=
  .obj [("requestBody", .obj []), ("responseBody", .obj []), ("additionalData", .obj adC8)]

/-- Configuration used by the C8 instances (api TTL default 30, cache TTL
default 0, cache updates enabled). -/
def cfgC8 : Config := ⟨30, 0, false⟩

/-- C8 counterexample: with `transaction_id = "t1"` and
`subscriber_url = "/"` — both present and non-blank after trimming — and a
zero cache TTL, `LogEvent` still fails with the `InvalidArgument` input
error, because the trailing-slash stripping makes the derived key empty;
so "input error exactly when transaction_id or subscriber_url is missing
or blank, or cache TTL negative" is false as stated. -/
theorem C8_counterexample :
    trimSpace (getString adC8 "transaction_id") ≠ "" ∧
    trimSpace (getString adC8 "subscriber_url") ≠ "" ∧
    getInt64 adC8 "cache_ttl_seconds" = 0 ∧
    cfgC8.cacheTTLSecondsDefault = 0 ∧
    (logEventSync cfgC8 "now0" "uuid0" "ts0" rawC8 emptyStore).1 =
      .error .invalidArgument := by
  refine ⟨by decide, by decide, by decide, by decide, by rfl⟩

theorem C8_witness :
    (logEventSync cfgC8 "now0" "uuid0" "ts0"
      (.obj [("requestBody", .obj []), ("responseBody", .obj []),
             ("additionalData", .obj [("transaction_id", .str "t1"),
               ("subscriber_url", .str "https://s"),
               ("cache_ttl_seconds", .num (-5))])])
      emptyStore).1 = .error .invalidArgument := by
  have h := (C8_prop.2.2.2 cfgC8 "now0" "uuid0" "ts0"
      (.obj [("requestBody", .obj []), ("responseBody", .obj []),
             ("additionalData", .obj [("transaction_id", .str "t1"),
               ("subscriber_url", .str "https://s"),
               ("cache_ttl_seconds", .num (-5))])])
      emptyStore
      ⟨some [], some [], some [("transaction_id", .str "t1"),
        ("subscriber_url", .str "https://s"), ("cache_ttl_seconds", .num (-5))]⟩
      [] [] (by rfl) (by rfl) (by rfl))
  exact h.mpr (Or.inr (Or.inr (Or.inr (by decide))))

theorem decodeObjField_of_not_obj (o : List (String × JVal)) (k : String)
    (h : isObjField (objGet o k) = false) :
    decodeObjField o k = .ok none ∨ decodeObjField o k = .error () := by
  unfold decodeObjField
  rcases hv : objGet o k with _ | v
  · simp
  · rw [hv] at h
    cases v <;> simp_all [isObjField]

theorem decodeObjField_of_obj (o : List (String × JVal)) (k : String)
    (m : List (String × JVal)) (h : objGet o k = some (.obj m)) :
    decodeObjField o k = .ok (some m) := by
  simp [decodeObjField, h]

/-- C10: when the event payload omits `requestBody` or `responseBody`, or
binds either to `null` or to a non-object value, the synchronous
`LogEvent` path fails with `InvalidArgument` and the store is exactly the
input store (no cache read/write happened); by contrast a payload whose
bodies are objects but whose `additionalData` is absent behaves exactly as
if `additionalData` were the empty object. -/
theorem C10_prop (cfg : Config) (now uuid serverTs : String) (store : Store)
    (o : List (String × JVal)) :
    ((isObjField (objGet o "requestBody") = false ∨
      isObjField (objGet o "responseBody") = false) →
      logEventSync cfg now uuid serverTs (.obj o) store =
        (.error .invalidArgument, store)) ∧
    (∀ rb sb : List (String × JVal),
      objGet o "requestBody" = some (.obj rb) →
      objGet o "responseBody" = some (.obj sb) →
      objGet o "additionalData" = none →
      logEventSync cfg now uuid serverTs (.obj o) store =
        logEventSync cfg now uuid serverTs
          (.obj (objSet o "additionalData" (.obj []))) store) := by
  constructor
  · intro hbad
    rcases hr : decodeObjField o "requestBody" with e | orb
    · simp [logEventSync, parseAuditPayload, hr, Bind.bind, Except.bind]
    · rcases hs : decodeObjField o "responseBody" with e | osb
      · simp [logEventSync, parseAuditPayload, hr, hs, Bind.bind, Except.bind]
      · rcases ha : decodeObjField o "additionalData" with e | oad
        · simp [logEventSync, parseAuditPayload, hr, hs, ha, Bind.bind, Except.bind]
        · have hparse : parseAuditPayload (.obj o) = .ok ⟨orb, osb, oad⟩ := by
            simp [parseAuditPayload, hr, hs, ha, Bind.bind, Except.bind]
          have hnil : orb = none ∨ osb = none := by
            rcases hbad with hb | hb
            · rcases decodeObjField_of_not_obj o "requestBody" hb with h2 | h2
              · rw [hr] at h2
                exact Or.inl (by simpa using h2)
              · rw [hr] at h2
                exact Except.noConfusion h2
            · rcases decodeObjField_of_not_obj o "responseBody" hb with h2 | h2
              · rw [hs] at h2
                exact Or.inr (by simpa using h2)
              · rw [hs] at h2
                exact Except.noConfusion h2
          rcases hnil with hn | hn
          · subst hn
            simp [logEventSync, hparse]
          · subst hn
            rcases orb with _ | rb2
            · simp [logEventSync, hparse]
            · simp [logEventSync, hparse]
  · intro rb sb hrb hsb had
    have hparse1 : parseAuditPayload (.obj o) = .ok ⟨some rb, some sb, none⟩ := by
      simp [parseAuditPayload, decodeObjField, hrb, hsb, had, Bind.bind, Except.bind]
    have hrb2 : objGet (objSet o "additionalData" (.obj [])) "requestBody" =
        some (.obj rb) := by
      rw [objGet_objSet_other _ _ _ _ (by decide), hrb]
    have hsb2 : objGet (objSet o "additionalData" (.obj [])) "responseBody" =
        some (.obj sb) := by
      rw [objGet_objSet_other _ _ _ _ (by decide), hsb]
    have hparse2 : parseAuditPayload (.obj (objSet o "additionalData" (.obj []))) =
        .ok ⟨some rb, some sb, some []⟩ := by
      simp [parseAuditPayload, decodeObjField, hrb2, hsb2, objGet_objSet_same,
        Bind.bind, Except.bind]
    simp [logEventSync, hparse1, hparse2]

theorem C10_witness :
    logEventSync ⟨30, 0, false⟩ "now0" "uuid0" "ts0"
        (.obj [("responseBody", .obj [])]) emptyStore =
      (.error .invalidArgument, emptyStore) :=
  (C10_prop ⟨30, 0, false⟩ "now0" "uuid0" "ts0" emptyStore
    [("responseBody", .obj [])]).1 (Or.inl (by decide))
